import Mathlib

/-!
Verification of the swapui repository (src/price.py, src/spotprice.py,
src/swapui.py): a shallow embedding of its decoders, window aggregates,
spot calculators and engine state, with theorems checking the spec.

Modelling conventions:
* Python floats are modelled as exact rationals (ℚ); the float value
  `float("inf")` that the source uses as a price sentinel is modelled by the
  dedicated constructor `Px.inf` of an inductive price type.
* Unsigned raw amounts (uint256 fields) are ℕ, signed raw amounts
  (int256 fields) are ℤ.
* `None` returns are `Option.none`.
-/

namespace SwapUI

/-- A Python float holding a price: either a finite rational or the
`float("inf")` sentinel the source produces for zero-denominator cases. -/
inductive Px where
  | fin (q : ℚ)
  | inf
deriving DecidableEq, Repr

/-- Python truthiness of a price float: `0.0` is falsy, every other float
(including `inf`) is truthy. -/
def Px.truthy : Px → Bool
  | Px.fin q => q ≠ 0
  | Px.inf => true

/-- The finite value of a price float; `inf` has no finite value and is mapped
to 0 (callers below only apply this after filtering `inf` out). -/
def Px.val : Px → ℚ
  | Px.fin q => q
  | Px.inf => 0

/-- USDT has 6 fractional digits (src/spotprice.py line 13). -/
def USDT_DECIMALS : ℕ := 6

/-- WETH has 18 fractional digits (src/spotprice.py line 14). -/
def WETH_DECIMALS : ℕ := 18

/-- Embedding of `v2_price_from_swap` (src/spotprice.py lines 84-92,
src/swapui.py lines 114-121): decode a Uniswap-V2 Swap log's four unsigned
amount fields into `(price, eth_size)` for the ETH→USDT direction, or `none`
when the direction guard `amount0In > 0 and amount1Out > 0` fails.
The inner conditional `if eth_in` mirrors the Python float truthiness test. -/
def v2_price_from_swap (amount0In _amount1In _amount0Out amount1Out : ℕ) :
    Option (Px × ℚ) :=
  let a0in := amount0In
  let a1out := amount1Out
  if 0 < a0in ∧ 0 < a1out then
    let eth_in : ℚ := (a0in : ℚ) / 10 ^ 18
    let usdt_out : ℚ := (a1out : ℚ) / 10 ^ USDT_DECIMALS
    let px : Px := if eth_in ≠ 0 then Px.fin (usdt_out / eth_in) else Px.inf
    some (px, eth_in)
  else none

/-- Embedding of `v3_price_from_swap` (src/spotprice.py lines 94-103,
src/swapui.py lines 123-130): decode a Uniswap-V3 Swap log's two signed
amount fields into `(price, eth_size)` for ETH→USDT, or `none` when the
sign guard `amount0 > 0 and amount1 < 0` fails. -/
def v3_price_from_swap (amount0 amount1 : ℤ) : Option (Px × ℚ) :=
  if 0 < amount0 ∧ amount1 < 0 then
    let eth_in : ℚ := (amount0 : ℚ) / 10 ^ 18
    let usdt_out : ℚ := ((|amount1| : ℤ) : ℚ) / 10 ^ USDT_DECIMALS
    let px : Px := if eth_in ≠ 0 then Px.fin (usdt_out / eth_in) else Px.inf
    some (px, eth_in)
  else none

/-- Embedding of `vwap` (src/spotprice.py lines 74-77, src/swapui.py
lines 94-99): volume-weighted average of a window of `(price, size)` pairs;
`none` for an empty window or a zero size-sum (Python float truthiness of
`den`). -/
def vwap (items : List (ℚ × ℚ)) : Option ℚ :=
  if items = [] then none
  else
    let num := (items.map fun pq => pq.1 * pq.2).sum
    let den := (items.map fun pq => pq.2).sum
    if den ≠ 0 then some (num / den) else none

/-- Embedding of `pct_diff` (src/spotprice.py lines 79-81): signed percentage
difference `100*(a-b)/b`, `none` when either input is `None` or `b == 0`. -/
def pct_diff (a b : Option ℚ) : Option ℚ :=
  match a, b with
  | some x, some y => if y = 0 then none else some (100 * (x - y) / y)
  | _, _ => none

/-- Embedding of the deviation-warning test in `main`
(src/spotprice.py lines 181-183 and 191-193): a warning prints exactly when
the percentage difference is available and `abs(d) > DEVIATION_WARN_PCT`. -/
def deviation_warn (threshold : ℚ) (d : Option ℚ) : Bool :=
  match d with
  | none => false
  | some x => threshold < |x|

/-- Embedding of `v2_spot_price` arithmetic (src/spotprice.py lines 106-111,
src/swapui.py lines 101-106) applied to the two reserves returned by
`getReserves`: scaled-quote-reserve over scaled-base-reserve, with the
`float("inf")` fallback when the scaled base reserve is falsy. -/
def v2_spot_price (r0 r1 : ℕ) : Px :=
  let reserve_eth : ℚ := (r0 : ℚ) / 10 ^ 18
  let reserve_usdt : ℚ := (r1 : ℚ) / 10 ^ USDT_DECIMALS
  if reserve_eth ≠ 0 then Px.fin (reserve_usdt / reserve_eth) else Px.inf

/-- Embedding of `safe_avg` (src/price.py lines 99-101): filter the stored
values by Python truthiness and inequality with `float("inf")`, then average
the survivors, `none` when none remain. -/
def safe_avg (values : List Px) : Option ℚ :=
  let vals := values.filter fun v => v.truthy && v ≠ Px.inf
  if vals ≠ [] then some ((vals.map Px.val).sum / (vals.length : ℚ)) else none

/-- Modelled from the spec (C5, sentence "`simple_average()` ... returns the
arithmetic mean ignoring any entries whose stored value is the
invalid/infinite sentinel, returning unavailable if none remain"): the
average that ignores only the `inf` sentinel, keeping every finite entry
including zero. Used to compare the spec's words with `safe_avg`. -/
def simple_average_spec (values : List Px) : Option ℚ :=
  let vals := values.filter fun v => v ≠ Px.inf
  if vals ≠ [] then some ((vals.map Px.val).sum / (vals.length : ℚ)) else none

/-- VWAP window capacity in src/swapui.py line 29 (the engine keeps the last
30 swaps per venue). -/
def VWAP_WINDOW : ℕ := 30

/-- Spotprice script window capacity (src/spotprice.py line 22). -/
def VWAP_WINDOW_SPOTPRICE : ℕ := 20

/-- Deviation warning threshold, percent (src/spotprice.py line 24). -/
def DEVIATION_WARN_PCT : ℚ := 1

namespace Window

/-- One `append` on a Python `deque(maxlen=K)` (the windows are created with
`deque(maxlen=VWAP_WINDOW)` at src/spotprice.py lines 141-142 and
src/swapui.py lines 151-153): the element goes on the right and, when the
bound is exceeded, elements fall off the left. -/
def push (K : ℕ) (l : List α) (x : α) : List α :=
  let l2 := l ++ [x]
  if K < l2.length then l2.drop (l2.length - K) else l2

/-- The window obtained by pushing a whole sequence of entries, oldest first,
into an initially empty `deque(maxlen=K)`. -/
def fromList (K : ℕ) (xs : List α) : List α :=
  xs.foldl (push K) []

end Window

/-- Embedding of the combined cross-venue VWAP computed on each spot refresh
(src/swapui.py line 193): `vwap(deque(list(v2_trades) + list(v3_trades),
maxlen=VWAP_WINDOW))`; a `deque` built from an iterable with a `maxlen`
retains the last `maxlen` elements of that iterable. -/
def combined_vwap (v2_trades v3_trades : List (ℚ × ℚ)) : Option ℚ :=
  vwap (List.rtake (v2_trades ++ v3_trades) VWAP_WINDOW)

/-- Uniswap V2 WETH/USDT pool address (src/swapui.py line 34). -/
def UNISWAP_V2_POOL : ℕ := 0x0d4a11d5EEaaC28EC3F61d100daF4d40471f1852

/-- Uniswap V3 WETH/USDT pool address (src/swapui.py line 35). -/
def UNISWAP_V3_POOL : ℕ := 0x11b815efB8f581194ae79006d24E0d814B7697F6

/-- A contract handle: the connection it was built on and the pool address
(`w3.eth.contract(address=..., abi=...)`). -/
structure Contract where
  conn : ℕ
  address : ℕ
deriving DecidableEq, Repr

/-- A log-filter handle, holding the dict passed to `w3.eth.filter`
(src/swapui.py lines 147-148 and 209-210). -/
structure LogFilter where
  conn : ℕ
  fromBlock : ℕ
  address : ℕ
  topic : ℕ
deriving DecidableEq, Repr

/-- Embedding of the `ExecTrade` dataclass (src/swapui.py lines 84-91). -/
structure ExecTrade where
  ts : ℚ
  block : ℕ
  pool : String
  eth_size : ℚ
  price : ℚ
  tx : String
deriving Repr

/-- Embedding of the mutable fields of `Engine` (src/swapui.py
lines 134-159): connection, contract and filter handles, the two per-venue
trade windows, the recent-trade log, the chart series and the last spot
prices. -/
structure EngineState where
  w3 : ℕ
  v2 : Contract
  v3 : Contract
  v2_topic : ℕ
  v3_topic : ℕ
  v2_filter : LogFilter
  v3_filter : LogFilter
  v2_trades : List (ℚ × ℚ)
  v3_trades : List (ℚ × ℚ)
  recent_execs : List ExecTrade
  series : List (ℚ × Px × Px × Option ℚ)
  v2spot : Option Px
  v3spot : Option Px

/-- Embedding of the error-backoff reconnect step (src/swapui.py
lines 202-212, mirrored by src/spotprice.py lines 201-208): after the sleep
the engine builds a new provider connection, rebuilds both contract handles
on it, and recreates both filters from the new chain head minus 10; every
other field is left alone. -/
def reconnect (s : EngineState) (newConn newBlockNumber : ℕ) : EngineState :=
  { s with
    w3 := newConn
    v2 := ⟨newConn, UNISWAP_V2_POOL⟩
    v3 := ⟨newConn, UNISWAP_V3_POOL⟩
    v2_filter := ⟨newConn, newBlockNumber - 10, UNISWAP_V2_POOL, s.v2_topic⟩
    v3_filter := ⟨newConn, newBlockNumber - 10, UNISWAP_V3_POOL, s.v3_topic⟩ }

end SwapUI

namespace SwapUI

/-- Helper: `Window.push` is exactly "keep the last K of the appended list". -/
theorem Window.push_eq_rtake (K : ℕ) (l : List α) (x : α) :
    Window.push K l x = (l ++ [x]).rtake K := by
  rw [Window.push, List.rtake]
  split
  · rfl
  · rw [Nat.sub_eq_zero_of_le (by omega), List.drop_zero]

/-- Helper: keeping the last K of a list, appending, and keeping the last K
again is the same as keeping the last K of the whole appended list. -/
theorem rtake_append_rtake (K : ℕ) (l m : List α) :
    (l.rtake K ++ m).rtake K = (l ++ m).rtake K := by
  rw [List.rtake_eq_reverse_take_reverse, List.rtake_eq_reverse_take_reverse,
    List.rtake_eq_reverse_take_reverse]
  rw [List.reverse_append, List.reverse_append, List.reverse_reverse]
  rw [List.take_append_eq_append_take, List.take_append_eq_append_take]
  rw [List.take_take, Nat.min_eq_left (Nat.sub_le _ _)]

/-- Helper: folding pushes over a window that is already a last-K view
extends the view across the pushed entries. -/
theorem Window.foldl_push_rtake (K : ℕ) (xs : List α) :
    ∀ l : List α, xs.foldl (Window.push K) (l.rtake K) = (l ++ xs).rtake K := by
  induction xs with
  | nil => intro l; simp
  | cons x xs ih =>
    intro l
    rw [List.foldl_cons, Window.push_eq_rtake, rtake_append_rtake, ih (l ++ [x])]
    simp

/-- Helper: pushing a sequence into an empty bounded window keeps exactly the
last K entries of the sequence, in order. -/
theorem Window.fromList_eq_rtake (K : ℕ) (xs : List α) :
    Window.fromList K xs = xs.rtake K := by
  have h := Window.foldl_push_rtake K xs ([] : List α)
  simpa [Window.fromList] using h

/-- C1: the Venue-A (Uniswap-V2) decoder produces a record exactly when
`amount0In > 0` and `amount1Out > 0`; the record's price is
`(amount1Out/10^6) / (amount0In/10^18)` and its size is `amount0In/10^18`;
the spec's example `amount0In=1e18, amount1Out=2000e6` gives size 1 and
price 2000; any log with `amount0In = 0` is filtered out. -/
theorem v2_decode_correct (a0in a1in a0out a1out : ℕ) :
    ((v2_price_from_swap a0in a1in a0out a1out).isSome ↔ 0 < a0in ∧ 0 < a1out) ∧
    (0 < a0in → 0 < a1out →
      v2_price_from_swap a0in a1in a0out a1out =
        some (Px.fin (((a1out : ℚ) / 10 ^ 6) / ((a0in : ℚ) / 10 ^ 18)),
              (a0in : ℚ) / 10 ^ 18)) ∧
    v2_price_from_swap (10 ^ 18) a1in a0out (2000 * 10 ^ 6) =
      some (Px.fin 2000, 1) ∧
    v2_price_from_swap 0 a1in a0out a1out = none := by
  refine ⟨?_, ?_, ?_, ?_⟩
  · constructor
    · intro h
      by_contra hc
      simp only [v2_price_from_swap, if_neg hc, Option.isSome_none] at h
      exact Bool.false_ne_true h
    · intro h
      simp [v2_price_from_swap, h]
  · intro h0 h1
    have hpos : (0 : ℚ) < (a0in : ℚ) / 10 ^ 18 := by
      apply div_pos (by exact_mod_cast h0) (by norm_num)
    simp only [v2_price_from_swap, USDT_DECIMALS, if_pos (ne_of_gt hpos)]
    rw [if_pos (show 0 < a0in ∧ 0 < a1out from ⟨h0, h1⟩)]
  · have h0 : 0 < 10 ^ 18 := by norm_num
    have h1 : 0 < 2000 * 10 ^ 6 := by norm_num
    simp only [v2_price_from_swap, USDT_DECIMALS]
    rw [if_pos (show 0 < 10 ^ 18 ∧ 0 < 2000 * 10 ^ 6 from ⟨h0, h1⟩)]
    norm_num
  · simp [v2_price_from_swap]

/-- Closed-form witness for `v2_decode_correct` at a concrete input. -/
theorem v2_decode_correct_witness :
    v2_price_from_swap 2 3 4 5 = some (Px.fin ((5 / 10 ^ 6 : ℚ) / (2 / 10 ^ 18 : ℚ)), (2 : ℚ) / 10 ^ 18) :=
  (v2_decode_correct 2 3 4 5).2.1 (by norm_num) (by norm_num)

/-- C2: the Venue-B (Uniswap-V3) decoder produces a record exactly when
`amount0 > 0` and `amount1 < 0`; the price is `|amount1|/10^6` over
`amount0/10^18`; the spec's example `amount0=1e18, amount1=-1800e6` gives
price 1800, and `amount0=1e18, amount1=+500e6` is filtered out. -/
theorem v3_decode_correct (a0 a1 : ℤ) :
    ((v3_price_from_swap a0 a1).isSome ↔ 0 < a0 ∧ a1 < 0) ∧
    (0 < a0 → a1 < 0 →
      v3_price_from_swap a0 a1 =
        some (Px.fin ((((|a1| : ℤ) : ℚ) / 10 ^ 6) / ((a0 : ℚ) / 10 ^ 18)),
              (a0 : ℚ) / 10 ^ 18)) ∧
    v3_price_from_swap (10 ^ 18) (-(1800 * 10 ^ 6)) = some (Px.fin 1800, 1) ∧
    v3_price_from_swap (10 ^ 18) (500 * 10 ^ 6) = none := by
  refine ⟨?_, ?_, ?_, ?_⟩
  · constructor
    · intro h
      by_contra hc
      simp only [v3_price_from_swap, if_neg hc, Option.isSome_none] at h
      exact Bool.false_ne_true h
    · intro h
      simp [v3_price_from_swap, h]
  · intro h0 h1
    have hpos : (0 : ℚ) < (a0 : ℚ) / 10 ^ 18 := by
      apply div_pos (by exact_mod_cast h0) (by norm_num)
    simp only [v3_price_from_swap, USDT_DECIMALS, if_pos (ne_of_gt hpos)]
    rw [if_pos (show 0 < a0 ∧ a1 < 0 from ⟨h0, h1⟩)]
  · have h0 : (0 : ℤ) < 10 ^ 18 := by norm_num
    have h1 : (-(1800 * 10 ^ 6) : ℤ) < 0 := by norm_num
    simp only [v3_price_from_swap, USDT_DECIMALS]
    rw [if_pos (show (0:ℤ) < 10 ^ 18 ∧ (-(1800 * 10 ^ 6):ℤ) < 0 from ⟨h0, h1⟩)]
    norm_num
  · simp only [v3_price_from_swap]
    norm_num

/-- Closed-form witness for `v3_decode_correct` at a concrete input. -/
theorem v3_decode_correct_witness :
    v3_price_from_swap 7 (-3) =
      some (Px.fin ((((|(-3 : ℤ)| : ℤ) : ℚ) / 10 ^ 6) / ((7 : ℚ) / 10 ^ 18)), (7 : ℚ) / 10 ^ 18) :=
  (v3_decode_correct 7 (-3)).2.1 (by norm_num) (by norm_num)

end SwapUI

namespace SwapUI

/-- C3: `vwap` returns the weighted sum over the weight sum when the window is
non-empty and the weight sum is nonzero, and `none` when the window is empty
or the weight sum is zero; `vwap [(10,2),(20,1)] = 40/3` and the empty window
gives `none`. -/
theorem vwap_correct (items : List (ℚ × ℚ)) :
    (items ≠ [] → (items.map fun pq => pq.2).sum ≠ 0 →
      vwap items =
        some ((items.map fun pq => pq.1 * pq.2).sum /
          (items.map fun pq => pq.2).sum)) ∧
    ((items.map fun pq => pq.2).sum = 0 → vwap items = none) ∧
    vwap [((10 : ℚ), (2 : ℚ)), (20, 1)] = some (40 / 3) ∧
    vwap ([] : List (ℚ × ℚ)) = none := by
  refine ⟨?_, ?_, ?_, rfl⟩
  · intro hne hden
    simp [vwap, hne, hden]
  · intro hden
    cases items with
    | nil => rfl
    | cons a l =>
      simp only [List.map_cons, List.sum_cons] at hden
      simp [vwap, hden]
  · simp only [vwap]
    norm_num
    intro h
    simp at h

/-- Closed-form witness for `vwap_correct` at a concrete window. -/
theorem vwap_correct_witness :
    vwap [((10 : ℚ), (2 : ℚ)), (20, 1)] =
      some ((([((10 : ℚ), (2 : ℚ)), (20, 1)].map fun pq => pq.1 * pq.2).sum) /
        (([((10 : ℚ), (2 : ℚ)), (20, 1)].map fun pq => pq.2).sum)) :=
  (vwap_correct [(10, 2), (20, 1)]).1 (by simp) (by norm_num)

/-- C4: a bounded window never holds more than K entries, and after more than
K pushes it holds exactly the last K pushed entries in arrival order (FIFO
eviction of the oldest). -/
theorem window_fifo {α : Type} (K : ℕ) (xs : List α) :
    (Window.fromList K xs).length ≤ K ∧
    (K < xs.length → Window.fromList K xs = xs.drop (xs.length - K)) := by
  rw [Window.fromList_eq_rtake]
  constructor
  · rw [List.rtake, List.length_drop]
    omega
  · intro _
    rfl

/-- Closed-form witness for `window_fifo`: three pushes into a capacity-2
window keep the last two entries. -/
theorem window_fifo_witness :
    (Window.fromList 2 [1, 2, 3]).length ≤ 2 ∧ Window.fromList 2 [1, 2, 3] = [2, 3] :=
  ⟨(window_fifo 2 [1, 2, 3]).1, by
    have h := (window_fifo 2 [1, 2, 3]).2 (by norm_num)
    simpa using h⟩

/-- C5 counterexample: `safe_avg` does not ignore only the infinite sentinel;
its Python-truthiness filter also drops entries equal to zero. On
`[0.0, 10.0]` the code averages only `[10.0]` giving 10, while the mean that
ignores only the sentinel is 5; on `[0.0]` the code returns `None` even
though a finite entry remains after sentinel filtering. -/
theorem safe_avg_drops_zero_counterexample :
    safe_avg [Px.fin 0, Px.fin 10] = some 10 ∧
    simple_average_spec [Px.fin 0, Px.fin 10] = some 5 ∧
    safe_avg [Px.fin 0] = none ∧
    simple_average_spec [Px.fin 0] = some 0 := by
  have hf1 : List.filter (fun v => v.truthy && decide (v ≠ Px.inf))
      [Px.fin 0, Px.fin 10] = [Px.fin 10] := by decide
  have hf2 : List.filter (fun v => decide (v ≠ Px.inf))
      [Px.fin 0, Px.fin 10] = [Px.fin 0, Px.fin 10] := by decide
  have hf3 : List.filter (fun v => v.truthy && decide (v ≠ Px.inf))
      [Px.fin 0] = [] := by decide
  have hf4 : List.filter (fun v => decide (v ≠ Px.inf))
      [Px.fin 0] = [Px.fin 0] := by decide
  refine ⟨?_, ?_, ?_, ?_⟩
  · simp only [safe_avg, hf1]
    norm_num [Px.val]
  · simp only [simple_average_spec, hf2]
    norm_num [Px.val]
    intro h
    simp at h
  · simp only [safe_avg, hf3]
    norm_num
  · simp only [simple_average_spec, hf4]
    norm_num [Px.val]

/-- C5 amended: `safe_avg` returns the arithmetic mean of the entries that
are neither zero nor the infinite sentinel, and `none` exactly when no such
entry exists. -/
theorem safe_avg_correct (values : List Px) :
    safe_avg values =
      (let vals := values.filter fun v => v ≠ Px.fin 0 && v ≠ Px.inf
       if vals ≠ [] then some ((vals.map Px.val).sum / (vals.length : ℚ))
       else none) := by
  have hfilter : values.filter (fun v => v.truthy && v ≠ Px.inf) =
      values.filter (fun v => v ≠ Px.fin 0 && v ≠ Px.inf) := by
    apply List.filter_congr
    intro v _
    cases v with
    | fin q => by_cases hq : q = 0 <;> simp [Px.truthy, hq]
    | inf => simp [Px.truthy]
  simp only [safe_avg, hfilter]

/-- C6: the constant-product spot calculator returns the scaled-reserve ratio
when the base reserve is nonzero and the infinity sentinel — the source's
representation of "undefined" — when it is zero; reserves `100e18, 180000e6`
give 1800. -/
theorem v2_spot_correct (r0 r1 : ℕ) :
    (0 < r0 →
      v2_spot_price r0 r1 =
        Px.fin (((r1 : ℚ) / 10 ^ 6) / ((r0 : ℚ) / 10 ^ 18))) ∧
    v2_spot_price 0 r1 = Px.inf ∧
    v2_spot_price (100 * 10 ^ 18) (180000 * 10 ^ 6) = Px.fin 1800 := by
  refine ⟨?_, ?_, ?_⟩
  · intro h0
    have hpos : (0 : ℚ) < (r0 : ℚ) / 10 ^ 18 :=
      div_pos (by exact_mod_cast h0) (by norm_num)
    simp [v2_spot_price, USDT_DECIMALS, ne_of_gt hpos]
  · simp [v2_spot_price]
  · norm_num [v2_spot_price, USDT_DECIMALS]

/-- Closed-form witness for `v2_spot_correct` at a concrete pair of
reserves. -/
theorem v2_spot_correct_witness :
    v2_spot_price 1 0 = Px.fin ((((0 : ℕ) : ℚ) / 10 ^ 6) / (((1 : ℕ) : ℚ) / 10 ^ 18)) :=
  (v2_spot_correct 1 0).1 (by norm_num)

/-- C7: `pct_diff` returns `100*(vwap-spot)/spot` when both inputs are
present and the spot is nonzero, `none` otherwise; the warning fires exactly
when the absolute deviation strictly exceeds the threshold, so a deviation
exactly at the threshold does not flag; `pct_diff 1818 1800 = 1`. -/
theorem pct_diff_correct (a b thr d : ℚ) :
    (b ≠ 0 → pct_diff (some a) (some b) = some (100 * (a - b) / b)) ∧
    pct_diff (some a) (some 0) = none ∧
    pct_diff none (some b) = none ∧
    pct_diff (some a) none = none ∧
    (|d| = thr → deviation_warn thr (some d) = false) ∧
    (deviation_warn thr (some d) = true ↔ thr < |d|) ∧
    deviation_warn thr none = false ∧
    pct_diff (some 1818) (some 1800) = some 1 := by
  refine ⟨?_, ?_, rfl, rfl, ?_, ?_, rfl, ?_⟩
  · intro hb
    simp [pct_diff, hb]
  · simp [pct_diff]
  · intro h
    simp [deviation_warn, ← h]
  · simp [deviation_warn]
  · norm_num [pct_diff]

/-- Closed-form witness for `pct_diff_correct` at concrete inputs. -/
theorem pct_diff_correct_witness :
    pct_diff (some (3 : ℚ)) (some 2) = some (100 * (3 - 2) / 2) ∧
    deviation_warn 1 (some (-1 : ℚ)) = false ∧
    deviation_warn 1 (some (2 : ℚ)) = true :=
  ⟨(pct_diff_correct 3 2 1 0).1 (by norm_num),
   (pct_diff_correct 3 2 1 (-1)).2.2.2.2.1 (by norm_num),
   (pct_diff_correct 3 2 1 2).2.2.2.2.2.1.mpr (by norm_num)⟩

/-- C8: the combined cross-venue VWAP that the engine re-derives on each spot
refresh equals the vwap formula applied to a temporary capacity-K-bounded
window view of the concatenation of both venues' pairs. -/
theorem combined_vwap_correct (v2t v3t : List (ℚ × ℚ)) :
    combined_vwap v2t v3t = vwap (Window.fromList VWAP_WINDOW (v2t ++ v3t)) := by
  rw [combined_vwap, Window.fromList_eq_rtake]

/-- C9: the error-backoff reconnect step rebuilds only the connection, the
contract handles and the filter handles; both venue windows, the trade log,
the chart series and every aggregate derived from them are unchanged. -/
theorem reconnect_frame (s : EngineState) (c b : ℕ) :
    (reconnect s c b).v2_trades = s.v2_trades ∧
    (reconnect s c b).v3_trades = s.v3_trades ∧
    (reconnect s c b).recent_execs = s.recent_execs ∧
    (reconnect s c b).series = s.series ∧
    (reconnect s c b).v2spot = s.v2spot ∧
    (reconnect s c b).v3spot = s.v3spot ∧
    (reconnect s c b).w3 = c ∧
    (reconnect s c b).v2_filter = ⟨c, b - 10, UNISWAP_V2_POOL, s.v2_topic⟩ ∧
    (reconnect s c b).v3_filter = ⟨c, b - 10, UNISWAP_V3_POOL, s.v3_topic⟩ ∧
    vwap (reconnect s c b).v2_trades = vwap s.v2_trades ∧
    vwap (reconnect s c b).v3_trades = vwap s.v3_trades ∧
    combined_vwap (reconnect s c b).v2_trades (reconnect s c b).v3_trades =
      combined_vwap s.v2_trades s.v3_trades :=
  ⟨rfl, rfl, rfl, rfl, rfl, rfl, rfl, rfl, rfl, rfl, rfl, rfl⟩

/-- C10: whenever a filtering decoder accepts a log, the returned price is a
finite, strictly positive value and the returned weight is strictly
positive; the `float("inf")` fallback branch is unreachable under the
direction guards, so no infinity sentinel reaches a venue window through
these decoders. -/
theorem decoders_positive (a0in a1in a0out a1out : ℕ) (a0 a1 : ℤ) :
    (∀ p w, v2_price_from_swap a0in a1in a0out a1out = some (p, w) →
      (∃ q, p = Px.fin q ∧ 0 < q) ∧ 0 < w) ∧
    (∀ p w, v3_price_from_swap a0 a1 = some (p, w) →
      (∃ q, p = Px.fin q ∧ 0 < q) ∧ 0 < w) := by
  constructor
  · intro p w h
    simp only [v2_price_from_swap] at h
    split at h
    case isTrue hc =>
      have heth : (0 : ℚ) < (a0in : ℚ) / 10 ^ 18 :=
        div_pos (by exact_mod_cast hc.1) (by norm_num)
      have husdt : (0 : ℚ) < (a1out : ℚ) / 10 ^ USDT_DECIMALS :=
        div_pos (by exact_mod_cast hc.2) (by norm_num)
      rw [if_pos (ne_of_gt heth)] at h
      simp only [Option.some.injEq, Prod.mk.injEq] at h
      obtain ⟨hp, hw⟩ := h
      exact ⟨⟨_, hp.symm, div_pos husdt heth⟩, hw ▸ heth⟩
    case isFalse => exact absurd h (by simp)
  · intro p w h
    simp only [v3_price_from_swap] at h
    split at h
    case isTrue hc =>
      have heth : (0 : ℚ) < (a0 : ℚ) / 10 ^ 18 :=
        div_pos (by exact_mod_cast hc.1) (by norm_num)
      have habs : (0 : ℤ) < |a1| := abs_pos.mpr (ne_of_lt hc.2)
      have husdt : (0 : ℚ) < ((|a1| : ℤ) : ℚ) / 10 ^ USDT_DECIMALS :=
        div_pos (by exact_mod_cast habs) (by norm_num)
      rw [if_pos (ne_of_gt heth)] at h
      simp only [Option.some.injEq, Prod.mk.injEq] at h
      obtain ⟨hp, hw⟩ := h
      exact ⟨⟨_, hp.symm, div_pos husdt heth⟩, hw ▸ heth⟩
    case isFalse => exact absurd h (by simp)

/-- Closed-form witness for `decoders_positive` at concrete accepted logs. -/
theorem decoders_positive_witness :
    ((∃ q, Px.fin ((10 : ℚ) ^ 12) = Px.fin q ∧ 0 < q) ∧
      (0 : ℚ) < 1 / 10 ^ 18) ∧
    ((∃ q, Px.fin (3 * (10 : ℚ) ^ 12 / 2) = Px.fin q ∧ 0 < q) ∧
      (0 : ℚ) < 2 / 10 ^ 18) :=
  ⟨(decoders_positive 1 0 0 1 2 (-3)).1 (Px.fin ((10 : ℚ) ^ 12)) (1 / 10 ^ 18)
      (by norm_num [v2_price_from_swap, USDT_DECIMALS]),
   (decoders_positive 1 0 0 1 2 (-3)).2 (Px.fin (3 * (10 : ℚ) ^ 12 / 2)) (2 / 10 ^ 18)
      (by norm_num [v3_price_from_swap, USDT_DECIMALS])⟩

end SwapUI
